import Mathlib

/-!
Verification of the recipe-dashboard data-transformation core
(web-dev-api): the Filter Engine, Statistics Aggregator, Nutrition
Series Builder and Text Sanitizer, shallowly embedded from
src/App.jsx, src/routes/RecipeDetail.jsx and src/routes/DetailView.jsx.

JavaScript numbers are modelled value-wise: a finite number is an
exact rational, and the non-finite values NaN and plus/minus Infinity
are explicit constructors.  toFixed(1) is modelled by its numeric
value (rounding to one decimal, ties toward the larger candidate, as
the ECMAScript toFixed algorithm specifies); the rendering of that
value as a string is view-layer concern, out of scope per the spec.
-/

/-- A JavaScript field value as it can occur in an API record: absent
(undefined), null, a boolean, a finite number, NaN, an infinity, or a
string. -/
inductive JSVal where
  | undef
  | null
  | bool (b : Bool)
  | num (q : ℚ)
  | nan
  | inf
  | neginf
  | str (s : String)
deriving DecidableEq, Repr

/-- The result of coercing a value to a JavaScript number: a finite
rational, NaN, or an infinity. -/
inductive JSNum where
  | fin (q : ℚ)
  | nan
  | inf
  | neginf
deriving DecidableEq, Repr

namespace JSNum

/-- Number.isFinite. -/
def isFinite : JSNum → Bool
  | fin _ => true
  | _ => false

/-- The finite value, when there is one. -/
def toFinite : JSNum → Option ℚ
  | fin q => some q
  | _ => none

/-- Multiplication of a JavaScript number by a positive rational
constant (the macro factors 4 and 9): NaN stays NaN, infinities keep
their sign. -/
def mulPos (x : JSNum) (k : ℚ) : JSNum :=
  match x with
  | fin q => fin (q * k)
  | nan => nan
  | inf => inf
  | neginf => neginf

end JSNum

/-- Accumulate a run of decimal digits into a natural number; none if a
non-digit appears. -/
def digitsAcc : List Char → Nat → Option Nat
  | [], acc => some acc
  | c :: cs, acc =>
    if c.isDigit then digitsAcc cs (acc * 10 + (c.toNat - 48)) else none

/-- Parse an unsigned decimal literal (digits, optionally with a single
decimal point; at least one digit overall), as the ECMAScript
StrUnsignedDecimalLiteral grammar accepts for plain decimals. -/
def parseUnsignedDec (cs : List Char) : Option ℚ :=
  let ip := cs.takeWhile Char.isDigit
  let rest := cs.dropWhile Char.isDigit
  match rest with
  | [] =>
    if ip = [] then none
    else (digitsAcc ip 0).map (fun n => (n : ℚ))
  | d :: fp =>
    if d = '.' then
      if ip = [] ∧ fp = [] then none
      else
        match digitsAcc ip 0, digitsAcc fp 0 with
        | some n, some f => some ((n : ℚ) + (f : ℚ) / ((10 : ℚ) ^ fp.length))
        | _, _ => none
    else none

/-- JavaScript String.prototype.toLowerCase, modelled character by
character. -/
def jsToLower (s : String) : String :=
  String.mk (s.toList.map Char.toLower)

/-- JavaScript String.prototype.trim: strip whitespace from both ends
of the string. -/
def jsTrim (s : String) : String :=
  String.mk (((s.toList.dropWhile Char.isWhitespace).reverse.dropWhile
    Char.isWhitespace).reverse)

/-- String-to-number coercion: a whitespace-only string is 0; otherwise
a (possibly signed) plain decimal literal denotes its value and
anything else is NaN.  (Exponent, hex and Infinity literal forms of the
ECMAScript grammar are not modelled; no record in this development uses
them.) -/
def strToNum (s : String) : JSNum :=
  let t := (jsTrim s).toList
  match t with
  | [] => JSNum.fin 0
  | c :: cs =>
    if c = '-' then
      match parseUnsignedDec cs with
      | some q => JSNum.fin (-q)
      | none => JSNum.nan
    else if c = '+' then
      match parseUnsignedDec cs with
      | some q => JSNum.fin q
      | none => JSNum.nan
    else
      match parseUnsignedDec t with
      | some q => JSNum.fin q
      | none => JSNum.nan

/-- The Number(x) coercion: undefined is NaN, null is 0, booleans are
1 and 0, numbers are themselves, strings parse as decimal literals. -/
def toNumber : JSVal → JSNum
  | JSVal.undef => JSNum.nan
  | JSVal.null => JSNum.fin 0
  | JSVal.bool b => JSNum.fin (if b then 1 else 0)
  | JSVal.num q => JSNum.fin q
  | JSVal.nan => JSNum.nan
  | JSVal.inf => JSNum.inf
  | JSVal.neginf => JSNum.neginf
  | JSVal.str s => strToNum s

/-- JavaScript truthiness of a field value (the !! coercion). -/
def truthy : JSVal → Bool
  | JSVal.undef => false
  | JSVal.null => false
  | JSVal.bool b => b
  | JSVal.num q => q ≠ 0
  | JSVal.nan => false
  | JSVal.inf => true
  | JSVal.neginf => true
  | JSVal.str s => s ≠ ""

/-- One RecipeSummary row as the search endpoint returns it.  title is
a string or absent; cuisines and diets are arrays of strings, or absent
(the code replaces a missing or non-array value by the empty array);
readyInMinutes, healthScore and the diet booleans may hold anything. -/
structure Recipe where
  title : Option String
  readyInMinutes : JSVal
  servings : JSVal
  healthScore : JSVal
  cuisines : Option (List String)
  diets : Option (List String)
  vegetarian : JSVal
  vegan : JSVal
  glutenFree : JSVal
deriving DecidableEq, Repr

/-- Whether the first character list is an initial segment of the
second. -/
def prefixB : List Char → List Char → Bool
  | [], _ => true
  | _ :: _, [] => false
  | a :: as, b :: bs => a == b && prefixB as bs

/-- Whether the first character list occurs contiguously in the
second. -/
def infixB (needle : List Char) : List Char → Bool
  | [] => prefixB needle []
  | b :: bs => prefixB needle (b :: bs) || infixB needle bs

/-- Substring test on strings (the String.prototype.includes used for
the title match), via infix of the character lists. -/
def substrB (needle hay : String) : Bool :=
  infixB needle.toList hay.toList

/-- The per-item predicate of the Filter Engine, from App.jsx lines
58-78: q is the trimmed lower-cased query computed once outside the
filter. -/
def matchesFilter (q diet : String) (r : Recipe) : Bool :=
  let title := jsToLower (r.title.getD "")
  let matchQ := q == "" || substrB q title
  if diet == "all" then matchQ
  else
    let flagVegetarian := truthy r.vegetarian || (r.diets.getD []).contains "vegetarian"
    let flagVegan := truthy r.vegan || (r.diets.getD []).contains "vegan"
    let flagGlutenFree := truthy r.glutenFree || (r.diets.getD []).contains "gluten free"
    let matchDiet :=
      (diet == "vegetarian" && flagVegetarian) ||
      (diet == "vegan" && flagVegan) ||
      (diet == "glutenFree" && flagGlutenFree)
    matchQ && matchDiet

/-- The Filter Engine (App.jsx lines 57-80): filter the list with the
predicate, the query trimmed and lower-cased once. -/
def filtered (recipes : List Recipe) (query diet : String) : List Recipe :=
  recipes.filter (matchesFilter (jsToLower (jsTrim query)) diet)

/-- A statistic rendered in a stat card: a numeric value, or the
unavailable sentinel (the em dash). -/
inductive StatVal where
  | num (q : ℚ)
  | dash
deriving DecidableEq, Repr

/-- The numeric value of toFixed(1): round to one decimal, a tie going
to the larger candidate, as the ECMAScript toFixed algorithm picks the
larger n. -/
def toFixed1 (q : ℚ) : ℚ :=
  (⌊q * 10 + 1 / 2⌋ : ℚ) / 10

/-- The four summary statistics of the dashboard. -/
structure SummaryStats where
  total : Nat
  avgReady : StatVal
  medianHS : StatVal
  cuisines : StatVal
deriving DecidableEq, Repr

/-- The finite Number coercions of the readyInMinutes fields, in list
order (App.jsx lines 86-88). -/
def readyVals (l : List Recipe) : List ℚ :=
  (l.map (fun r => toNumber r.readyInMinutes)).filterMap JSNum.toFinite

/-- The finite Number coercions of the healthScore fields, sorted
ascending (App.jsx lines 92-95; the a-minus-b comparator sorts numbers
ascending, and equal rationals are indistinguishable, so any correct
ascending sort models it). -/
def hsVals (l : List Recipe) : List ℚ :=
  ((l.map (fun r => toNumber r.healthScore)).filterMap JSNum.toFinite).insertionSort (· ≤ ·)

/-- The distinct truthy cuisine strings across the list (App.jsx lines
102-104): flatten the arrays, drop falsy entries (the empty string),
and deduplicate as the Set constructor does. -/
def cuisineSet (l : List Recipe) : List String :=
  ((l.flatMap (fun r => r.cuisines.getD [])).filter (fun s => s ≠ "")).dedup

/-- App.jsx lines 89-90: mean of the extracted ready values formatted
with toFixed(1) when there is at least one, the dash sentinel
otherwise. -/
def avgReadyOf (ready : List ℚ) : StatVal :=
  if ready.length ≠ 0 then StatVal.num (toFixed1 (ready.sum / ready.length))
  else StatVal.dash

/-- App.jsx lines 96-100: middle element of the sorted health scores
for an odd count, toFixed(1) of the mean of the two middle elements
for a positive even count, the dash sentinel for an empty list. -/
def medianHSOf (hs : List ℚ) : StatVal :=
  if hs.length ≠ 0 then
    if hs.length % 2 ≠ 0 then StatVal.num (hs.getD ((hs.length - 1) / 2) 0)
    else StatVal.num (toFixed1 ((hs.getD (hs.length / 2 - 1) 0 + hs.getD (hs.length / 2) 0) / 2))
  else StatVal.dash

/-- The Statistics Aggregator (App.jsx lines 83-107); the
size-or-dash on the cuisine set models the .size || sentinel
expression, under which a zero size becomes the sentinel. -/
def stats (l : List Recipe) : SummaryStats :=
  ⟨l.length,
   avgReadyOf (readyVals l),
   medianHSOf (hsVals l),
   if (cuisineSet l).length ≠ 0 then StatVal.num ((cuisineSet l).length)
   else StatVal.dash⟩

/-- One entry of a nutrition record: a nutrient name, an amount field
that may hold anything, and a unit that may be absent. -/
structure Nutrient where
  name : String
  amount : JSVal
  unit : Option String
deriving DecidableEq, Repr

/-- What the find helper of NutritionCharts returns: a coerced amount
and a unit string (RecipeDetail.jsx lines 22-25). -/
structure AmountUnit where
  amount : JSNum
  unit : String
deriving DecidableEq, Repr

/-- First nutrient with exactly the given name (the Array.prototype
.find with a strict equality test on the name field). -/
def findNutrient (nutrients : List Nutrient) (name : String) : Option Nutrient :=
  nutrients.find? (fun x => x.name == name)

/-- The falsy-or fallback on the unit field: an absent or empty unit
string falls back (the n?.unit || fallbackUnit expression). -/
def unitOr (u : Option String) (fallbackUnit : String) : String :=
  match u with
  | none => fallbackUnit
  | some s => if s = "" then fallbackUnit else s

/-- The find helper (RecipeDetail.jsx lines 22-25): amount is
Number(n.amount) when the nutrient is present and 0 otherwise; unit is
the nutrient's unit with the falsy fallback. -/
def find (nutrients : List Nutrient) (name fallbackUnit : String) : AmountUnit :=
  match findNutrient nutrients name with
  | some n => ⟨toNumber n.amount, unitOr n.unit fallbackUnit⟩
  | none => ⟨JSNum.fin 0, fallbackUnit⟩

/-- The macro-calorie donut series (RecipeDetail.jsx lines 28-37):
protein and carbohydrate grams times 4, fat grams times 9. -/
def donutData (nutrients : List Nutrient) : List (String × JSNum) :=
  [("Protein", JSNum.mulPos (find nutrients "Protein" "g").amount 4),
   ("Fat", JSNum.mulPos (find nutrients "Fat" "g").amount 9),
   ("Carbs", JSNum.mulPos (find nutrients "Carbohydrates" "g").amount 4)]

/-- One bar of the key-nutrient chart. -/
structure BarEntry where
  name : String
  amount : JSNum
  unit : String
deriving DecidableEq, Repr

/-- The fixed bar-chart keys (RecipeDetail.jsx line 40). -/
def BAR_KEYS : List String :=
  ["Calories", "Protein", "Fat", "Carbohydrates", "Fiber", "Sugar"]

/-- The key-nutrient bar series (RecipeDetail.jsx lines 41-44). -/
def barData (nutrients : List Nutrient) : List BarEntry :=
  BAR_KEYS.map (fun k =>
    let au := find nutrients k (if k == "Calories" then "kcal" else "g")
    ⟨k, au.amount, au.unit⟩)

/-- Character-level tag stripping: characters between an opening angle
bracket and the next closing one are dropped, everything else is kept
in order. -/
def stripTagsGo : List Char → Bool → List Char
  | [], _ => []
  | c :: cs, inTag =>
    if inTag then
      if c = '>' then stripTagsGo cs false else stripTagsGo cs true
    else
      if c = '<' then stripTagsGo cs true
      else c :: stripTagsGo cs false

/-- Modelled from the spec: the Text Sanitizer stripHtml
(RecipeDetail.jsx lines 13-17 and DetailView.jsx lines 7-11) delegates
parsing to the browser DOM (innerHTML then textContent), which is not
part of this repository; per the spec contract the tags are stripped
and the text nodes concatenated in document order, and an absent input
is replaced by the empty string before parsing (the html || ""
expression).  Entity decoding is not modelled; no claim uses it. -/
def stripHtml (html : Option String) : String :=
  String.mk (stripTagsGo (html.getD "").toList false)

/-- Spec text predicate (spec 4.1): passes when the trimmed
lower-cased query is empty, or is a substring of the lower-cased
title. -/
def textPred (queryText : String) (r : Recipe) : Bool :=
  let q := jsToLower (jsTrim queryText)
  q = "" || substrB q (jsToLower (r.title.getD ""))

/-- Spec diet predicate (spec 4.1): all always passes; otherwise the
matching boolean flag is true or the diets tag array contains the
matching label, glutenFree mapping to the tag "gluten free"; an
unrecognized selector admits nothing. -/
def dietPred (dietSelector : String) (r : Recipe) : Bool :=
  if dietSelector = "all" then true
  else if dietSelector = "vegetarian" then
    truthy r.vegetarian || (r.diets.getD []).contains "vegetarian"
  else if dietSelector = "vegan" then
    truthy r.vegan || (r.diets.getD []).contains "vegan"
  else if dietSelector = "glutenFree" then
    truthy r.glutenFree || (r.diets.getD []).contains "gluten free"
  else false

/-- Arithmetic mean of a list of rationals, none when empty. -/
def mean (vals : List ℚ) : Option ℚ :=
  if vals.length = 0 then none else some (vals.sum / vals.length)

/-- Spec median (spec 4.2): sort ascending; odd count gives the middle
value; even count gives the average of the two middle values, rounded
to one decimal only when that average is non-integral. -/
def specMedian (vals : List ℚ) : Option ℚ :=
  let s := vals.insertionSort (· ≤ ·)
  if s.length = 0 then none
  else if s.length % 2 = 1 then some (s.getD ((s.length - 1) / 2) 0)
  else
    let m := (s.getD (s.length / 2 - 1) 0 + s.getD (s.length / 2) 0) / 2
    some (if m.den = 1 then m else toFixed1 m)

/-- The amount of the named nutrient, 0 when it is missing from the
record (spec 4.3: missing nutrients contribute amount 0). -/
def amountOf (nutrients : List Nutrient) (name : String) : JSNum :=
  match findNutrient nutrients name with
  | some n => toNumber n.amount
  | none => JSNum.fin 0

/-- Spec macro-calorie split (spec 4.3): Protein kcal = protein grams
times 4, Fat kcal = fat grams times 9, Carbs kcal = carbohydrate grams
times 4, a missing macro contributing amount 0. -/
def specMacroSplit (nutrients : List Nutrient) : List (String × JSNum) :=
  [("Protein", JSNum.mulPos (amountOf nutrients "Protein") 4),
   ("Fat", JSNum.mulPos (amountOf nutrients "Fat") 9),
   ("Carbs", JSNum.mulPos (amountOf nutrients "Carbohydrates") 4)]

/-- The default unit of a key nutrient (spec 4.3): kcal for Calories,
g for the rest. -/
def defaultUnit (name : String) : String :=
  if name = "Calories" then "kcal" else "g"

/-- Spec key-nutrient bar series (spec 4.3): the six fixed names in
order, each resolved by exact name lookup; a missing nutrient yields
amount 0 with the default unit; a present nutrient contributes its
coerced amount, and its unit when one is given (an absent or empty
unit falls back to the default). -/
def specBarSeries (nutrients : List Nutrient) : List BarEntry :=
  ["Calories", "Protein", "Fat", "Carbohydrates", "Fiber", "Sugar"].map (fun k =>
    match findNutrient nutrients k with
    | none => ⟨k, JSNum.fin 0, defaultUnit k⟩
    | some n => ⟨k, toNumber n.amount, unitOr n.unit (defaultUnit k)⟩)

/-- A finite numeric source value in the sense of claim C1: an actual
finite number, nothing coerced.  Absent, null, boolean and string
fields have no finite numeric value. -/
def finiteNumericVal : JSVal → Option ℚ
  | JSVal.num q => some q
  | _ => none

/-- Claim C1 as stated, for readyInMinutes: avgReadyMinutes is the
mean of only the finite numeric readyInMinutes values (rounded to one
decimal), with the sentinel when no item has one. -/
def c1AvgReadySpec (l : List Recipe) : Prop :=
  (stats l).avgReady =
    match mean (l.filterMap (fun r => finiteNumericVal r.readyInMinutes)) with
    | none => StatVal.dash
    | some m => StatVal.num (toFixed1 m)

/-- A recipe with every field absent; concrete instances below adjust
single fields. -/
def blankRecipe : Recipe :=
  ⟨none, JSVal.undef, JSVal.undef, JSVal.undef, none, none,
   JSVal.undef, JSVal.undef, JSVal.undef⟩

/-- A recipe whose readyInMinutes field is null: the Number coercion
turns it into the finite 0, so the aggregator includes it. -/
def nullReadyRecipe : Recipe :=
  { blankRecipe with readyInMinutes := JSVal.null }

theorem count_filter_ite {α : Type} [DecidableEq α] (p : α → Bool) (l : List α) (a : α) :
    (l.filter p).count a = if p a then l.count a else 0 := by
  by_cases h : p a = true
  · rw [if_pos h, List.count_filter h]
  · rw [if_neg h, List.count_eq_zero]
    intro hmem
    exact h (List.of_mem_filter hmem)

/-- C7: for the empty filtered list, total is 0 and the three other
statistics are the unavailable sentinel. -/
theorem c7_empty_stats :
    stats [] = ⟨0, StatVal.dash, StatVal.dash, StatVal.dash⟩ := by decide

/-- C4: with dietSelector all and a query that is empty after
trimming (whitespace-only queries included), the Filter Engine returns
the input list unchanged. -/
theorem c4_filter_identity (recipes : List Recipe) (query : String)
    (h : jsTrim query = "") :
    filtered recipes query "all" = recipes := by
  unfold filtered
  rw [h]
  apply List.filter_eq_self.mpr
  intro r _
  simp [matchesFilter, jsToLower]

theorem c4_filter_identity_witness :
    jsTrim "  " = "" ∧ filtered [blankRecipe] "  " "all" = [blankRecipe] :=
  ⟨by decide, c4_filter_identity [blankRecipe] "  " (by decide)⟩

/-- C9: a diet selector other than the four recognized values admits
no item, so the Filter Engine returns the empty list whatever the
query. -/
theorem c9_unknown_diet_selector (recipes : List Recipe) (query diet : String)
    (h1 : diet ≠ "all") (h2 : diet ≠ "vegetarian") (h3 : diet ≠ "vegan")
    (h4 : diet ≠ "glutenFree") :
    filtered recipes query diet = [] := by
  unfold filtered
  rw [List.filter_eq_nil_iff]
  intro r _
  simp [matchesFilter, h1, h2, h3, h4]

theorem c9_unknown_diet_selector_witness :
    filtered [blankRecipe] "" "keto" = [] :=
  c9_unknown_diet_selector [blankRecipe] "" "keto"
    (by decide) (by decide) (by decide) (by decide)

theorem stripTagsGo_no_tag : ∀ cs : List Char, (∀ c ∈ cs, c ≠ '<') →
    stripTagsGo cs false = cs := by
  intro cs
  induction cs with
  | nil => intro _; rfl
  | cons c cs ih =>
    intro h
    unfold stripTagsGo
    rw [if_neg (by simp), if_neg (by exact h c (by simp))]
    rw [ih (fun x hx => h x (by simp [hx]))]

theorem mk_toList_eq (s : String) : String.mk s.toList = s := rfl

/-- C8: the Text Sanitizer strips tags and keeps the text in document
order; the spec example yields Hello World, empty and absent inputs
yield the empty string, and a tag-free string passes through
unchanged. -/
theorem c8_text_sanitizer :
    stripHtml (some "<p>Hello <b>World</b></p>") = "Hello World" ∧
    stripHtml (some "") = "" ∧
    stripHtml none = "" ∧
    (∀ s : String, (∀ c ∈ s.toList, c ≠ '<') → stripHtml (some s) = s) := by
  refine ⟨by decide, by decide, by decide, ?_⟩
  intro s h
  unfold stripHtml
  rw [Option.getD_some, stripTagsGo_no_tag s.toList h, mk_toList_eq]

theorem c8_text_sanitizer_witness :
    (∀ c ∈ "Hello".toList, c ≠ '<') ∧ stripHtml (some "Hello") = "Hello" :=
  ⟨by decide, c8_text_sanitizer.2.2.2 "Hello" (by decide)⟩

theorem find_of_found {nutrients : List Nutrient} {k : String} {n : Nutrient}
    (fb : String) (h : findNutrient nutrients k = some n) :
    find nutrients k fb = ⟨toNumber n.amount, unitOr n.unit fb⟩ := by
  unfold find
  rw [h]

/-- C10: when a nutrient with the looked-up name is present, the
series amount is the Number coercion of its amount field (NaN when the
amount is absent or a non-numeric string, never 0), and only the unit
falls back. -/
theorem c10_present_nutrient_amount (nutrients : List Nutrient)
    (k fb : String) (n : Nutrient)
    (h : findNutrient nutrients k = some n) :
    (find nutrients k fb).amount = toNumber n.amount ∧
    (find nutrients k fb).unit = unitOr n.unit fb ∧
    (n.amount = JSVal.undef →
      (find nutrients k fb).amount = JSNum.nan ∧
      (find nutrients k fb).amount ≠ JSNum.fin 0) ∧
    (∀ s : String, n.amount = JSVal.str s → strToNum s = JSNum.nan →
      (find nutrients k fb).amount = JSNum.nan) := by
  rw [find_of_found fb h]
  refine ⟨rfl, rfl, ?_, ?_⟩
  · intro ha
    rw [ha]
    refine ⟨rfl, ?_⟩
    show JSNum.nan ≠ JSNum.fin 0
    decide
  · intro s hs hnan
    rw [hs]
    exact hnan

theorem c10_present_nutrient_amount_witness :
    findNutrient [⟨"Protein", JSVal.undef, none⟩] "Protein" =
      some ⟨"Protein", JSVal.undef, none⟩ ∧
    (find [⟨"Protein", JSVal.undef, none⟩] "Protein" "g").amount =
      toNumber JSVal.undef :=
  ⟨by decide,
   (c10_present_nutrient_amount [⟨"Protein", JSVal.undef, none⟩] "Protein" "g"
     ⟨"Protein", JSVal.undef, none⟩ (by decide)).1⟩

theorem find_amount_eq_amountOf (nutrients : List Nutrient) (k fb : String) :
    (find nutrients k fb).amount = amountOf nutrients k := by
  unfold find amountOf
  cases findNutrient nutrients k <;> rfl

/-- The nutrition record of the spec example: Protein 10 g, Fat 5 g,
Carbohydrates 20 g. -/
def macroExample : List Nutrient :=
  [⟨"Protein", JSVal.num 10, some "g"⟩,
   ⟨"Fat", JSVal.num 5, some "g"⟩,
   ⟨"Carbohydrates", JSVal.num 20, some "g"⟩]

/-- C5: the macro-calorie split equals the spec split (three entries
Protein, Fat, Carbs in that order at 4, 9 and 4 kcal per gram, a
missing macro contributing amount 0); the empty record gives three
zero entries and the spec example gives 40, 45 and 80 kcal. -/
theorem c5_macro_calorie_split (nutrients : List Nutrient) :
    donutData nutrients = specMacroSplit nutrients ∧
    donutData [] =
      [("Protein", JSNum.fin 0), ("Fat", JSNum.fin 0), ("Carbs", JSNum.fin 0)] ∧
    donutData macroExample =
      [("Protein", JSNum.fin 40), ("Fat", JSNum.fin 45), ("Carbs", JSNum.fin 80)] := by
  refine ⟨?_, ?_, ?_⟩
  · unfold donutData specMacroSplit
    rw [find_amount_eq_amountOf, find_amount_eq_amountOf, find_amount_eq_amountOf]
  · have h1 : donutData [] =
        [("Protein", JSNum.mulPos (JSNum.fin 0) 4),
         ("Fat", JSNum.mulPos (JSNum.fin 0) 9),
         ("Carbs", JSNum.mulPos (JSNum.fin 0) 4)] := rfl
    rw [h1]
    norm_num [JSNum.mulPos]
  · have h1 : donutData macroExample =
        [("Protein", JSNum.mulPos (JSNum.fin 10) 4),
         ("Fat", JSNum.mulPos (JSNum.fin 5) 9),
         ("Carbs", JSNum.mulPos (JSNum.fin 20) 4)] := rfl
    rw [h1]
    norm_num [JSNum.mulPos]

theorem fallback_eq_defaultUnit (k : String) :
    (if k == "Calories" then "kcal" else "g") = defaultUnit k := by
  simp [defaultUnit]

theorem barEntry_eq (nutrients : List Nutrient) (k : String) :
    (⟨k, (find nutrients k (defaultUnit k)).amount,
      (find nutrients k (defaultUnit k)).unit⟩ : BarEntry) =
      match findNutrient nutrients k with
      | none => ⟨k, JSNum.fin 0, defaultUnit k⟩
      | some n => ⟨k, toNumber n.amount, unitOr n.unit (defaultUnit k)⟩ := by
  unfold find
  cases findNutrient nutrients k <;> rfl

/-- A nutrition record with no Fiber entry. -/
def noFiberExample : List Nutrient :=
  [⟨"Calories", JSVal.num 200, some "kcal"⟩, ⟨"Protein", JSVal.num 10, some "g"⟩]

/-- C6: the key-nutrient bar series equals the spec series (the six
fixed names in order, exact name lookup, amount 0 and default unit for
a missing nutrient, default unit when a present nutrient omits its
unit); the names are always the six in order; a record missing Fiber
still yields a Fiber bar of amount 0 and unit g; lookup is
case-sensitive (a lower-case calories entry matches nothing); and a
present Calories without a unit gets the default kcal. -/
theorem c6_key_nutrient_series (nutrients : List Nutrient) :
    barData nutrients = specBarSeries nutrients ∧
    (barData nutrients).map BarEntry.name =
      ["Calories", "Protein", "Fat", "Carbohydrates", "Fiber", "Sugar"] ∧
    BarEntry.mk "Fiber" (JSNum.fin 0) "g" ∈ barData noFiberExample ∧
    barData [⟨"calories", JSVal.num 99, some "x"⟩] = barData [] ∧
    barData [⟨"Calories", JSVal.num 100, none⟩] =
      [⟨"Calories", JSNum.fin 100, "kcal"⟩, ⟨"Protein", JSNum.fin 0, "g"⟩,
       ⟨"Fat", JSNum.fin 0, "g"⟩, ⟨"Carbohydrates", JSNum.fin 0, "g"⟩,
       ⟨"Fiber", JSNum.fin 0, "g"⟩, ⟨"Sugar", JSNum.fin 0, "g"⟩] := by
  refine ⟨?_, ?_, by decide, by decide, by decide⟩
  · unfold barData specBarSeries BAR_KEYS
    apply List.map_congr_left
    intro k _
    simp only [fallback_eq_defaultUnit]
    exact barEntry_eq nutrients k
  · unfold barData BAR_KEYS
    simp

theorem toFinite_eq_none {x : JSNum} (h : x.isFinite = false) :
    x.toFinite = none := by
  cases x <;> simp [JSNum.isFinite, JSNum.toFinite] at h ⊢

theorem readyVals_append_nonfinite (l : List Recipe) (r : Recipe)
    (h : (toNumber r.readyInMinutes).isFinite = false) :
    readyVals (l ++ [r]) = readyVals l := by
  unfold readyVals
  rw [List.map_append, List.filterMap_append]
  simp [toFinite_eq_none h]

theorem hsVals_append_nonfinite (l : List Recipe) (r : Recipe)
    (h : (toNumber r.healthScore).isFinite = false) :
    hsVals (l ++ [r]) = hsVals l := by
  unfold hsVals
  rw [List.map_append, List.filterMap_append]
  simp [toFinite_eq_none h]

theorem avgReadyOf_eq_mean (ready : List ℚ) :
    avgReadyOf ready =
      match mean ready with
      | none => StatVal.dash
      | some m => StatVal.num (toFixed1 m) := by
  unfold avgReadyOf mean
  by_cases h : ready.length = 0
  · simp [h]
  · simp [h]

/-- C1 as stated is false on the code: a null readyInMinutes is not a
finite numeric source value, so the claim demands the sentinel for a
list whose single item has readyInMinutes null; but Number(null) is 0,
which is finite, so the aggregator includes it and reports a mean of
0 rather than the sentinel. -/
theorem c1_null_ready_counterexample : ¬ c1AvgReadySpec [nullReadyRecipe] := by
  intro hcontra
  unfold c1AvgReadySpec at hcontra
  have h1 : [nullReadyRecipe].filterMap (fun r => finiteNumericVal r.readyInMinutes) = [] := rfl
  rw [h1] at hcontra
  have h2 : (stats [nullReadyRecipe]).avgReady =
      StatVal.num (toFixed1 ((readyVals [nullReadyRecipe]).sum /
        ((readyVals [nullReadyRecipe]).length : ℚ))) := rfl
  rw [h2] at hcontra
  exact StatVal.noConfusion hcontra

/-- C1 amended: exclusion applies to a value whose JavaScript Number
coercion is non-finite (absent, NaN, an infinity, or a non-numeric
string); such a value is dropped before the mean and median and never
coerced to zero; null, booleans and whitespace-only strings, however,
coerce to finite numbers and are included.  avgReadyMinutes is the
toFixed(1)-rounded arithmetic mean of the finite coerced
readyInMinutes values, with the sentinel when no item has one. -/
theorem c1_amended_nonfinite_excluded (l : List Recipe) :
    ((stats l).avgReady =
      match mean (readyVals l) with
      | none => StatVal.dash
      | some m => StatVal.num (toFixed1 m)) ∧
    (∀ r : Recipe, (toNumber r.readyInMinutes).isFinite = false →
      readyVals (l ++ [r]) = readyVals l ∧
      (stats (l ++ [r])).avgReady = (stats l).avgReady) ∧
    (∀ r : Recipe, (toNumber r.healthScore).isFinite = false →
      hsVals (l ++ [r]) = hsVals l ∧
      (stats (l ++ [r])).medianHS = (stats l).medianHS) := by
  refine ⟨avgReadyOf_eq_mean (readyVals l), ?_, ?_⟩
  · intro r h
    have hv := readyVals_append_nonfinite l r h
    exact ⟨hv, by show avgReadyOf _ = avgReadyOf _; rw [hv]⟩
  · intro r h
    have hv := hsVals_append_nonfinite l r h
    exact ⟨hv, by show medianHSOf _ = medianHSOf _; rw [hv]⟩

theorem c1_amended_nonfinite_excluded_witness :
    (toNumber blankRecipe.readyInMinutes).isFinite = false ∧
    readyVals ([nullReadyRecipe] ++ [blankRecipe]) = readyVals [nullReadyRecipe] :=
  ⟨by decide,
   ((c1_amended_nonfinite_excluded [nullReadyRecipe]).2.1 blankRecipe (by decide)).1⟩

theorem toFixed1_of_den_one (m : ℚ) (h : m.den = 1) : toFixed1 m = m := by
  have hm : m = (m.num : ℚ) := by
    conv_lhs => rw [← Rat.num_div_den m]
    rw [h]
    simp
  rw [hm]
  unfold toFixed1
  have h10 : ((m.num : ℚ) * 10 + 1 / 2) = ((m.num * 10 : ℤ) : ℚ) + 1 / 2 := by
    push_cast
    ring
  rw [h10, add_comm, Int.floor_add_int]
  have hz : ⌊(1 : ℚ) / 2⌋ = 0 := by norm_num
  rw [hz]
  push_cast
  ring

theorem medianHSOf_eq (s : List ℚ) :
    medianHSOf s =
      match (if s.length = 0 then none
             else if s.length % 2 = 1 then some (s.getD ((s.length - 1) / 2) 0)
             else
               let m := (s.getD (s.length / 2 - 1) 0 + s.getD (s.length / 2) 0) / 2
               some (if m.den = 1 then m else toFixed1 m)) with
      | none => StatVal.dash
      | some m => StatVal.num m := by
  unfold medianHSOf
  by_cases h0 : s.length = 0
  · rw [if_neg (fun hne => hne h0), if_pos h0]
  · rw [if_pos h0, if_neg h0]
    by_cases h2 : s.length % 2 = 1
    · rw [if_pos (by omega : s.length % 2 ≠ 0), if_pos h2]
    · rw [if_neg (by omega : ¬ s.length % 2 ≠ 0), if_neg h2]
      show StatVal.num (toFixed1 ((s.getD (s.length / 2 - 1) 0 + s.getD (s.length / 2) 0) / 2)) =
        StatVal.num (if ((s.getD (s.length / 2 - 1) 0 + s.getD (s.length / 2) 0) / 2).den = 1
          then (s.getD (s.length / 2 - 1) 0 + s.getD (s.length / 2) 0) / 2
          else toFixed1 ((s.getD (s.length / 2 - 1) 0 + s.getD (s.length / 2) 0) / 2))
      by_cases hden : ((s.getD (s.length / 2 - 1) 0 + s.getD (s.length / 2) 0) / 2).den = 1
      · rw [if_pos hden, toFixed1_of_den_one _ hden]
      · rw [if_neg hden]

theorem medianHSOf_insertionSort (vals : List ℚ) :
    medianHSOf (vals.insertionSort (· ≤ ·)) =
      match specMedian vals with
      | none => StatVal.dash
      | some m => StatVal.num m :=
  medianHSOf_eq (vals.insertionSort (· ≤ ·))

def hsRecipe (q : ℚ) : Recipe := { blankRecipe with healthScore := JSVal.num q }

/-- C2: medianHealthScore agrees with the spec median of the finite
coerced healthScore values (ascending sort, middle element for odd
counts, one-decimal rounding of the two-middle average only when it is
non-integral), and the two spec examples hold. -/
theorem c2_median_health_score (l : List Recipe) :
    ((stats l).medianHS =
      match specMedian ((l.map (fun r => toNumber r.healthScore)).filterMap JSNum.toFinite) with
      | none => StatVal.dash
      | some m => StatVal.num m) ∧
    (stats [hsRecipe 10, hsRecipe 20, hsRecipe 30, hsRecipe 40]).medianHS = StatVal.num 25 ∧
    (stats [hsRecipe 10, hsRecipe 20, hsRecipe 30]).medianHS = StatVal.num 20 := by
  refine ⟨medianHSOf_insertionSort _, ?_, ?_⟩
  · norm_num [stats, hsVals, readyVals, cuisineSet, hsRecipe, blankRecipe, toNumber,
      JSNum.toFinite, List.insertionSort, List.orderedInsert, medianHSOf, toFixed1]
  · norm_num [stats, hsVals, readyVals, cuisineSet, hsRecipe, blankRecipe, toNumber,
      JSNum.toFinite, List.insertionSort, List.orderedInsert, medianHSOf, toFixed1]

theorem beq_empty_eq_decide (s : String) : (s == "") = decide (s = "") := by
  by_cases h : s = ""
  · simp [h]
  · simp [h]

theorem matchesFilter_eq_preds (query diet : String) (r : Recipe)
    (h : diet = "all" ∨ diet = "vegetarian" ∨ diet = "vegan" ∨ diet = "glutenFree") :
    matchesFilter (jsToLower (jsTrim query)) diet r =
      (textPred query r && dietPred diet r) := by
  rcases h with h | h | h | h <;> subst h <;>
    simp [matchesFilter, textPred, dietPred, beq_empty_eq_decide]

/-- C3: for the four recognized selectors, the Filter Engine output is
an order-preserving subsequence of the input containing, with its
input multiplicity, exactly the items satisfying both the spec text
predicate and the spec diet predicate. -/
theorem c3_filter_subsequence (recipes : List Recipe) (query diet : String)
    (h : diet = "all" ∨ diet = "vegetarian" ∨ diet = "vegan" ∨ diet = "glutenFree") :
    (filtered recipes query diet).Sublist recipes ∧
    ∀ r : Recipe, (filtered recipes query diet).count r =
      (if textPred query r && dietPred diet r then recipes.count r else 0) := by
  constructor
  · exact List.filter_sublist recipes
  · intro r
    unfold filtered
    rw [List.filter_congr (fun x _ => matchesFilter_eq_preds query diet x h)]
    exact count_filter_ite _ recipes r

theorem c3_filter_subsequence_witness :
    (filtered [blankRecipe] "" "all").Sublist [blankRecipe] :=
  (c3_filter_subsequence [blankRecipe] "" "all" (Or.inl rfl)).1
